import Mathlib

/-!
# Costureira Pro — client/counter aggregation and idempotent-lookup subsystem

A shallow embedding of the database-resident core of the application:

* the tables `clients`, `services`, `piece_counters`, `piece_counter_history`
  (effective schema: `1756644875000_create_costureira_schema_fix.sql` for
  clients/services — the one the TypeScript row types match — and
  `20250113000001_create_piece_counters.sql` for the counters);
* the SQL functions `get_or_create_client`, `get_or_create_piece_counter`;
* the triggers `update_client_stats` (AFTER INSERT OR UPDATE OR DELETE ON
  services) and `update_piece_counter_total` (AFTER INSERT ON
  piece_counter_history);
* the application-layer entry points `createService`, `addPiecesToCounter`
  and `updateClientFavorite` from `src/hooks/useSupabase.ts`.

Rows are Lean structures; UUIDs are modelled as naturals drawn from a
fresh-id counter `nextId`; `DECIMAL(10,2)` money and the signed `INTEGER`
piece count are modelled as `Int` (cents for money); `TIMESTAMP` values are
naturals and the SQL `::date` cast is truncation to a day number.
-/

namespace Costureira

abbrev UserId := Nat
abbrev ClientId := Nat
abbrev ServiceId := Nat
abbrev CounterId := Nat

/-- Service status, `status TEXT CHECK (status IN ('progress','delivered','paid'))`. -/
inductive Status where
  | progress
  | delivered
  | paid
deriving DecidableEq, Repr

/-- The `::date` cast applied to a `created_at` timestamp: truncation of a
second-counted timestamp to a day number. -/
def dateOf (t : Nat) : Nat := t / 86400

/-- SQL `LOWER()`: lower-case the text character by character. -/
def sqlLower (s : String) : String := ⟨s.data.map Char.toLower⟩

/-- A row of the `clients` table. -/
structure Client where
  id : ClientId
  user_id : UserId
  name : String
  phone : Option String := none
  email : Option String := none
  is_favorite : Bool := false
  total_spent : Int := 0
  last_service_date : Option Nat := none
  notes : Option String := none
  created_at : Nat := 0
  updated_at : Nat := 0
deriving DecidableEq, Repr

/-- A row of the `services` table. -/
structure Service where
  id : ServiceId
  user_id : UserId
  client_id : ClientId
  client_name : String
  description : String
  value : Int
  delivery_date : Option Nat := none
  status : Status
  notes : Option String := none
  created_at : Nat
  updated_at : Nat
deriving DecidableEq, Repr

/-- A row of the `piece_counters` table. -/
structure PieceCounter where
  id : CounterId
  user_id : UserId
  client_id : ClientId
  client_name : String
  total_pieces : Int
  created_at : Nat := 0
  updated_at : Nat := 0
deriving DecidableEq, Repr

/-- A row of the `piece_counter_history` table. -/
structure HistoryRow where
  id : Nat
  user_id : UserId
  counter_id : CounterId
  client_name : String
  pieces_added : Int
  description : Option String := none
  created_at : Nat := 0
deriving DecidableEq, Repr

/-- The database state: the four tables of the subsystem plus the fresh-id
source standing in for `gen_random_uuid()`. -/
structure DB where
  clients : List Client
  services : List Service
  counters : List PieceCounter
  history : List HistoryRow
  nextId : Nat
deriving DecidableEq, Repr

/-- The empty database. -/
def DB.empty : DB := ⟨[], [], [], [], 0⟩

/-- `get_or_create_client(p_user_id, p_client_name)`: look up the first
client of this account whose name matches case-insensitively
(`WHERE user_id = p_user_id AND LOWER(name) = LOWER(p_client_name) LIMIT 1`);
if none exists, `INSERT INTO clients (user_id, name)` with all other
columns at their defaults and return the fresh id. -/
def get_or_create_client (db : DB) (p_user_id : UserId) (p_client_name : String) :
    ClientId × DB :=
  match db.clients.find? (fun c =>
      c.user_id == p_user_id && sqlLower c.name == sqlLower p_client_name) with
  | some c => (c.id, db)
  | none =>
      let c : Client := { id := db.nextId, user_id := p_user_id, name := p_client_name }
      (db.nextId, { db with clients := db.clients ++ [c], nextId := db.nextId + 1 })

/-- `get_or_create_piece_counter(p_user_id, p_client_id, p_client_name)`:
look up the counter of this `(user, client)` pair; if none exists, insert
one with `total_pieces = 0` and return the fresh id. -/
def get_or_create_piece_counter (db : DB) (p_user_id : UserId) (p_client_id : ClientId)
    (p_client_name : String) : CounterId × DB :=
  match db.counters.find? (fun k => k.user_id == p_user_id && k.client_id == p_client_id) with
  | some k => (k.id, db)
  | none =>
      let k : PieceCounter :=
        { id := db.nextId, user_id := p_user_id, client_id := p_client_id,
          client_name := p_client_name, total_pieces := 0 }
      (db.nextId, { db with counters := db.counters ++ [k], nextId := db.nextId + 1 })

/-! ## Client statistics (trigger `update_client_stats`) -/

/-- The services currently belonging to a client:
`FROM services WHERE client_id = cid`. -/
def servicesOf (services : List Service) (cid : ClientId) : List Service :=
  services.filter (fun s => s.client_id == cid)

/-- `SELECT COALESCE(SUM(value), 0) FROM services WHERE client_id = cid AND status = 'paid'`. -/
def paidTotal (services : List Service) (cid : ClientId) : Int :=
  (((servicesOf services cid).filter (fun s => s.status == Status.paid)).map
    (fun s => s.value)).sum

/-- `SELECT MAX(created_at::date) FROM services WHERE client_id = cid`
(`none` is SQL `NULL`, the maximum over an empty set). -/
def lastServiceDate (services : List Service) (cid : ClientId) : Option Nat :=
  ((servicesOf services cid).map (fun s => dateOf s.created_at)).max?

/-- The body of `update_client_stats`: recompute `total_spent` and
`last_service_date` of the client row `WHERE id = cid` from the current
`services` table, touching `updated_at`. -/
def recomputeClientStats (db : DB) (cid : ClientId) (now : Nat) : DB :=
  { db with clients := db.clients.map (fun c =>
      if c.id == cid then
        { c with
            total_spent := paidTotal db.services cid,
            last_service_date := lastServiceDate db.services cid,
            updated_at := now }
      else c) }

/-! ## Service table operations with the `AFTER INSERT OR UPDATE OR DELETE`
trigger attached.  The trigger recomputes the stats of the client
`COALESCE(NEW.client_id, OLD.client_id)`: on INSERT and UPDATE that is
`NEW.client_id`, on DELETE it is `OLD.client_id`. -/

/-- The caller-supplied columns of a `services` INSERT; `id` and
`created_at` are generated by the database. -/
structure ServiceData where
  user_id : UserId
  client_id : ClientId
  client_name : String
  description : String
  value : Int
  delivery_date : Option Nat := none
  status : Status
  notes : Option String := none
deriving DecidableEq, Repr

/-- Build the stored row from an insert payload, assigning the fresh id and
the `DEFAULT NOW()` timestamps. -/
def ServiceData.toRow (d : ServiceData) (id : ServiceId) (now : Nat) : Service :=
  { id := id, user_id := d.user_id, client_id := d.client_id,
    client_name := d.client_name, description := d.description, value := d.value,
    delivery_date := d.delivery_date, status := d.status, notes := d.notes,
    created_at := now, updated_at := now }

/-- INSERT INTO services, then the AFTER INSERT trigger recomputes the
stats of `NEW.client_id`. -/
def svcInsert (db : DB) (d : ServiceData) (now : Nat) : DB :=
  let row := d.toRow db.nextId now
  let db1 := { db with services := db.services ++ [row], nextId := db.nextId + 1 }
  recomputeClientStats db1 row.client_id now

/-- UPDATE services SET ... WHERE id = sid (the primary key itself is never
updated), then the AFTER UPDATE trigger recomputes the stats of
`COALESCE(NEW.client_id, OLD.client_id) = NEW.client_id`.  When no row has
this id the statement touches nothing and the trigger does not fire. -/
def svcUpdate (db : DB) (sid : ServiceId) (g : Service → Service) (now : Nat) : DB :=
  match db.services.find? (fun s => s.id == sid) with
  | none => db
  | some old =>
      let db1 := { db with services := db.services.map (fun s =>
        if s.id == sid then { g s with id := s.id } else s) }
      recomputeClientStats db1 ({ g old with id := old.id }).client_id now

/-- DELETE FROM services WHERE id = sid, then the AFTER DELETE trigger
recomputes the stats of `OLD.client_id`. -/
def svcDelete (db : DB) (sid : ServiceId) (now : Nat) : DB :=
  match db.services.find? (fun s => s.id == sid) with
  | none => db
  | some old =>
      let db1 := { db with services := db.services.filter (fun s => !(s.id == sid)) }
      recomputeClientStats db1 old.client_id now

/-- One mutation of the `services` table. -/
inductive SvcOp where
  | ins (d : ServiceData) (now : Nat)
  | upd (sid : ServiceId) (g : Service → Service) (now : Nat)
  | del (sid : ServiceId) (now : Nat)

/-- Apply one service mutation (trigger included). -/
def applySvcOp (db : DB) : SvcOp → DB
  | .ins d now => svcInsert db d now
  | .upd sid g now => svcUpdate db sid g now
  | .del sid now => svcDelete db sid now

/-- Apply a sequence of service mutations. -/
def applySvcOps (db : DB) (ops : List SvcOp) : DB :=
  ops.foldl applySvcOp db

/-! ## Piece-counter history insert with the `AFTER INSERT` trigger
`update_piece_counter_total` attached. -/

/-- The caller-supplied columns of a `piece_counter_history` INSERT. -/
structure HistoryData where
  user_id : UserId
  counter_id : CounterId
  client_name : String
  pieces_added : Int
  description : Option String := none
deriving DecidableEq, Repr

/-- INSERT INTO piece_counter_history, then the trigger adds
`NEW.pieces_added` to `total_pieces` of the counter `WHERE id = NEW.counter_id`. -/
def historyInsert (db : DB) (d : HistoryData) (now : Nat) : DB :=
  let row : HistoryRow :=
    { id := db.nextId, user_id := d.user_id, counter_id := d.counter_id,
      client_name := d.client_name, pieces_added := d.pieces_added,
      description := d.description, created_at := now }
  { db with
      history := db.history ++ [row],
      counters := db.counters.map (fun k =>
        if k.id == d.counter_id then
          { k with total_pieces := k.total_pieces + d.pieces_added, updated_at := now }
        else k),
      nextId := db.nextId + 1 }

/-- The stored running total of a counter (`none` when no such counter row exists). -/
def counterTotal (db : DB) (kid : CounterId) : Option Int :=
  (db.counters.find? (fun k => k.id == kid)).map (fun k => k.total_pieces)

/-- Full recomputation from the ledger:
`SELECT COALESCE(SUM(pieces_added), 0) FROM piece_counter_history WHERE counter_id = kid`. -/
def ledgerTotal (db : DB) (kid : CounterId) : Int :=
  ((db.history.filter (fun r => r.counter_id == kid)).map (fun r => r.pieces_added)).sum

/-! ## Data-layer validation of a raw `services` INSERT

The effective schema (the fix migration, whose columns the TypeScript row
types match) declares

`user_id ... NOT NULL`, `client_id ... NOT NULL`, `client_name TEXT NOT NULL`,
`description TEXT NOT NULL`, `value DECIMAL(10,2) NOT NULL`,
`status TEXT CHECK (status IN ('progress','delivered','paid')) DEFAULT 'progress'`.

A raw insert payload may omit any column (SQL `NULL`); the data layer
rejects `NULL` in a `NOT NULL` column and a status outside the CHECK list.
There is no constraint on the sign of `value` in this schema. -/

/-- A raw `services` INSERT payload as it reaches the data layer: every
caller-supplied column may be absent. -/
structure RawServiceInsert where
  user_id : Option UserId := none
  client_id : Option ClientId := none
  client_name : Option String := none
  description : Option String := none
  value : Option Int := none
  delivery_date : Option Nat := none
  status : Option String := none
  notes : Option String := none
deriving DecidableEq, Repr

/-- The status CHECK constraint, on the raw text after applying
`DEFAULT 'progress'` to an absent value. -/
def statusCheckOk (p : RawServiceInsert) : Bool :=
  let st := p.status.getD "progress"
  st == "progress" || st == "delivered" || st == "paid"

/-- The `NOT NULL` constraints of the `services` table. -/
def requiredPresent (p : RawServiceInsert) : Bool :=
  p.user_id.isSome && p.client_id.isSome && p.client_name.isSome &&
    p.description.isSome && p.value.isSome

/-- Decode the checked status text into the status enumeration. -/
def decodeStatus (st : String) : Status :=
  if st == "delivered" then Status.delivered
  else if st == "paid" then Status.paid
  else Status.progress

/-- A raw INSERT INTO services at the data layer: reject a constraint
violation (leaving the database untouched), otherwise insert the row and
fire the `update_client_stats` trigger. -/
def rawServiceInsert (db : DB) (p : RawServiceInsert) (now : Nat) :
    Except String DB :=
  if requiredPresent p && statusCheckOk p then
    Except.ok (svcInsert db
      { user_id := p.user_id.getD 0, client_id := p.client_id.getD 0,
        client_name := p.client_name.getD "", description := p.description.getD "",
        value := p.value.getD 0, delivery_date := p.delivery_date,
        status := decodeStatus (p.status.getD "progress"), notes := p.notes } now)
  else
    Except.error "constraint violation"

/-! ## Application layer (`src/hooks/useSupabase.ts`)

Each exported mutator first resolves the authenticated user and throws
`'User not authenticated'` before issuing any write when there is none.
The functions return the thrown error (left component) together with the
resulting database state. -/

/-- The typed argument of `createService`. -/
structure CreateServiceInput where
  client_name : String
  description : String
  value : Int
  delivery_date : Option Nat := none
  status : Status
deriving DecidableEq, Repr

/-- `createService`: require an authenticated user, resolve-or-create the
client from the supplied name, then insert the service row with the
caller's `client_name` stored verbatim (the trigger updates the client's
stats). -/
def createService (auth : Option UserId) (db : DB) (inp : CreateServiceInput)
    (now : Nat) : Except String Service × DB :=
  match auth with
  | none => (Except.error "User not authenticated", db)
  | some uid =>
      let res := get_or_create_client db uid inp.client_name
      let row : Service :=
        { id := res.2.nextId, user_id := uid, client_id := res.1,
          client_name := inp.client_name, description := inp.description,
          value := inp.value, delivery_date := inp.delivery_date,
          status := inp.status, created_at := now, updated_at := now }
      let db2 := svcInsert res.2
        { user_id := uid, client_id := res.1, client_name := inp.client_name,
          description := inp.description, value := inp.value,
          delivery_date := inp.delivery_date, status := inp.status } now
      (Except.ok row, db2)

/-- The typed argument of `addPiecesToCounter`. -/
structure AddPiecesInput where
  client_name : String
  pieces_added : Int
  description : Option String := none
deriving DecidableEq, Repr

/-- `addPiecesToCounter`: require an authenticated user, resolve-or-create
the client, resolve-or-create its counter, then insert the history row
(the trigger updates the counter's running total). -/
def addPiecesToCounter (auth : Option UserId) (db : DB) (inp : AddPiecesInput)
    (now : Nat) : Except String HistoryRow × DB :=
  match auth with
  | none => (Except.error "User not authenticated", db)
  | some uid =>
      let res := get_or_create_client db uid inp.client_name
      let res2 := get_or_create_piece_counter res.2 uid res.1 inp.client_name
      let row : HistoryRow :=
        { id := res2.2.nextId, user_id := uid, counter_id := res2.1,
          client_name := inp.client_name, pieces_added := inp.pieces_added,
          description := inp.description, created_at := now }
      (Except.ok row, historyInsert res2.2
        { user_id := uid, counter_id := res2.1, client_name := inp.client_name,
          pieces_added := inp.pieces_added, description := inp.description } now)

/-- `updateClientFavorite`:
`UPDATE clients SET is_favorite = b WHERE id = clientId`; the
`BEFORE UPDATE` trigger `update_updated_at_column` touches `updated_at` on
the modified row. -/
def updateClientFavorite (db : DB) (clientId : ClientId) (isFavorite : Bool)
    (now : Nat) : DB :=
  { db with clients := db.clients.map (fun c =>
      if c.id == clientId then
        { c with is_favorite := isFavorite, updated_at := now }
      else c) }

/-! ## Lookup lemmas for find-or-create -/

/-- After an unsuccessful scan, scanning the list extended by one row finds
that row exactly when it matches. -/
lemma find?_append_single {α : Type} (p : α → Bool) (l : List α) (x : α)
    (h : l.find? p = none) :
    (l ++ [x]).find? p = if p x then some x else none := by
  induction l with
  | nil => cases hx : p x <;> simp [List.find?, hx]
  | cons a t ih =>
      rw [List.find?_cons] at h
      cases hpa : p a with
      | true => simp [hpa] at h
      | false =>
          simp only [hpa] at h
          simpa [List.find?_cons, hpa] using ih h

/-- Two consecutive calls of `get_or_create_client` for the same account
and case-insensitively equal names: the second call returns the identifier
of the first and leaves the database unchanged. -/
lemma get_or_create_client_again (db : DB) (A : UserId) (n1 n2 : String)
    (h : sqlLower n1 = sqlLower n2) :
    get_or_create_client (get_or_create_client db A n1).2 A n2
      = ((get_or_create_client db A n1).1, (get_or_create_client db A n1).2) := by
  unfold get_or_create_client
  rw [← h]
  cases hfind : db.clients.find? (fun c =>
      c.user_id == A && sqlLower c.name == sqlLower n1) with
  | some c => simp [hfind]
  | none =>
      rw [find?_append_single _ _ _ hfind]
      simp

end Costureira

namespace Costureira

/-- C2: for every account A and name N, calling resolve-or-create-client
(A, N) twice in sequence returns the same client identifier both times,
and the second call leaves the clients table (indeed the whole database)
unchanged: no new Client row is created. -/
theorem claim2_resolve_or_create_client_idempotent (db : DB) (A : UserId) (N : String) :
    (get_or_create_client (get_or_create_client db A N).2 A N).1
        = (get_or_create_client db A N).1 ∧
      (get_or_create_client (get_or_create_client db A N).2 A N).2
        = (get_or_create_client db A N).2 := by
  have h := get_or_create_client_again db A N N rfl
  exact ⟨congrArg Prod.fst h, congrArg Prod.snd h⟩

/-- C4: resolve-or-create-client matches an existing client by
case-insensitive equality of the name within the account: whenever two
names agree up to letter case, resolving the second right after the first
returns the very same identifier and creates no new row. -/
theorem claim4_resolve_client_case_insensitive (db : DB) (A : UserId)
    (n1 n2 : String) (h : sqlLower n1 = sqlLower n2) :
    (get_or_create_client (get_or_create_client db A n1).2 A n2).1
        = (get_or_create_client db A n1).1 ∧
      (get_or_create_client (get_or_create_client db A n1).2 A n2).2
        = (get_or_create_client db A n1).2 := by
  have h2 := get_or_create_client_again db A n1 n2 h
  exact ⟨congrArg Prod.fst h2, congrArg Prod.snd h2⟩

/-! ## The client-statistics invariant -/

/-- Every client row carries exactly the statistics recomputed from the
current `services` table: `total_spent` is the paid sum, and
`last_service_date` the maximal creation date, of its services. -/
def clientStatsOk (db : DB) : Prop :=
  ∀ c ∈ db.clients, c.total_spent = paidTotal db.services c.id ∧
    c.last_service_date = lastServiceDate db.services c.id

instance : DecidablePred clientStatsOk := fun db =>
  List.decidableBAll _ db.clients

/-- Well-formedness of the `services` table: distinct primary keys, all
below the fresh-id source. -/
def svcIdsWf (db : DB) : Prop :=
  (db.services.map Service.id).Nodup ∧ ∀ s ∈ db.services, s.id < db.nextId

instance : DecidablePred svcIdsWf := fun db =>
  inferInstanceAs (Decidable ((db.services.map Service.id).Nodup ∧
    ∀ s ∈ db.services, s.id < db.nextId))

/-- An operation that never moves a service between clients: every update
leaves `client_id` unchanged (inserts and deletes trivially qualify). -/
def opPreservesClient : SvcOp → Prop
  | .upd _ g _ => ∀ s, (g s).client_id = s.client_id
  | _ => True

/-- Both statistics are functions of the client's own slice of the
`services` table. -/
lemma stats_congr (l1 l2 : List Service) (c : ClientId)
    (h : servicesOf l1 c = servicesOf l2 c) :
    paidTotal l1 c = paidTotal l2 c ∧ lastServiceDate l1 c = lastServiceDate l2 c := by
  unfold paidTotal lastServiceDate
  rw [h]
  exact ⟨rfl, rfl⟩

/-- Appending a row of another client leaves a client's slice unchanged. -/
lemma servicesOf_append_single (l : List Service) (row : Service) (c : ClientId)
    (h : row.client_id ≠ c) :
    servicesOf (l ++ [row]) c = servicesOf l c := by
  unfold servicesOf
  rw [List.filter_append]
  simp [List.filter_cons, h]

/-- Mapping a function that rewrites only rows outside the filter leaves
the filtered list unchanged. -/
lemma filter_map_eq_of_untouched {α : Type} (g : α → α) (p : α → Bool) (l : List α)
    (h : ∀ a ∈ l, g a = a ∨ (p a = false ∧ p (g a) = false)) :
    (l.map g).filter p = l.filter p := by
  induction l with
  | nil => rfl
  | cons a t ih =>
      have ht := ih (fun x hx => h x (List.mem_cons_of_mem a hx))
      rcases h a (List.mem_cons_self a t) with hid | ⟨hpa, hpga⟩
      · simp [List.filter_cons, hid, ht]
      · simp [List.filter_cons, hpa, hpga, ht]

/-- Dropping rows that all lie outside the filter leaves the filtered list
unchanged. -/
lemma filter_filter_eq_of_dropped {α : Type} (keep p : α → Bool) (l : List α)
    (h : ∀ a ∈ l, keep a = false → p a = false) :
    (l.filter keep).filter p = l.filter p := by
  induction l with
  | nil => rfl
  | cons a t ih =>
      have ht := ih (fun x hx => h x (List.mem_cons_of_mem a hx))
      cases hk : keep a with
      | true => simp [List.filter_cons, hk, ht]
      | false =>
          have hpa := h a (List.mem_cons_self a t) hk
          simp [List.filter_cons, hk, hpa, ht]

/-- An in-place update of the row with a given primary key, by a function
that keeps the row's client, leaves every other client's slice unchanged. -/
lemma servicesOf_update_frame (l : List Service) (sid : ServiceId)
    (g : Service → Service) (c : ClientId)
    (hnd : (l.map Service.id).Nodup) (old : Service)
    (hold : l.find? (fun s => s.id == sid) = some old)
    (hg : ∀ s, (g s).client_id = s.client_id)
    (hc : old.client_id ≠ c) :
    servicesOf (l.map (fun s =>
        if s.id == sid then { g s with id := s.id } else s)) c
      = servicesOf l c := by
  unfold servicesOf
  refine filter_map_eq_of_untouched _ _ _ (fun a ha => ?_)
  cases hid : a.id == sid with
  | false => left; simp [hid]
  | true =>
      right
      have haid : a.id = sid := by simpa using hid
      have holdid : old.id = sid := by simpa using List.find?_some hold
      have holdmem : old ∈ l := List.mem_of_find?_eq_some hold
      have : a = old :=
        List.inj_on_of_nodup_map hnd ha holdmem (by rw [haid, holdid])
      subst this
      refine ⟨by simpa using hc, ?_⟩
      simp only [hid, if_true]
      have h2 : ({ g a with id := a.id } : Service).client_id = a.client_id := hg a
      rw [h2, beq_eq_false_iff_ne]
      exact hc

/-- Deleting a row by primary key leaves every other client's slice
unchanged. -/
lemma servicesOf_delete_frame (l : List Service) (sid : ServiceId) (c : ClientId)
    (hnd : (l.map Service.id).Nodup) (old : Service)
    (hold : l.find? (fun s => s.id == sid) = some old)
    (hc : old.client_id ≠ c) :
    servicesOf (l.filter (fun s => !(s.id == sid))) c = servicesOf l c := by
  unfold servicesOf
  refine filter_filter_eq_of_dropped _ _ _ (fun a ha hk => ?_)
  have haid : a.id = sid := by
    cases hid : a.id == sid with
    | true => simpa using hid
    | false => rw [hid] at hk; simp at hk
  have holdid : old.id = sid := by simpa using List.find?_some hold
  have holdmem : old ∈ l := List.mem_of_find?_eq_some hold
  have : a = old :=
    List.inj_on_of_nodup_map hnd ha holdmem (by rw [haid, holdid])
  subst this
  simpa using hc

/-- After recomputing the stats of client `cid`, the invariant holds
provided every other client already carried correct stats with respect to
the current `services` table. -/
lemma clientStatsOk_recompute (db : DB) (cid : ClientId) (now : Nat)
    (hother : ∀ c ∈ db.clients, c.id ≠ cid →
      c.total_spent = paidTotal db.services c.id ∧
        c.last_service_date = lastServiceDate db.services c.id) :
    clientStatsOk (recomputeClientStats db cid now) := by
  intro c hc
  unfold recomputeClientStats at hc
  simp only [List.mem_map] at hc
  obtain ⟨c0, hc0mem, hc0⟩ := hc
  by_cases h0 : c0.id = cid
  · rw [← hc0]
    simp only [h0, beq_self_eq_true, if_true]
    exact ⟨rfl, rfl⟩
  · have hcc : c = c0 := by rw [← hc0]; simp [beq_eq_false_iff_ne.mpr h0]
    rw [hcc]
    exact hother c0 hc0mem h0

/-- One service mutation that does not move a service between clients
preserves both the table well-formedness and the statistics invariant. -/
lemma applySvcOp_preserves (db : DB) (op : SvcOp) (hwf : svcIdsWf db)
    (hstats : clientStatsOk db) (hop : opPreservesClient op) :
    svcIdsWf (applySvcOp db op) ∧ clientStatsOk (applySvcOp db op) := by
  obtain ⟨hnd, hlt⟩ := hwf
  cases op with
  | ins d now =>
      have hnotmem : db.nextId ∉ db.services.map Service.id := by
        intro hmem
        obtain ⟨s, hs, hid⟩ := List.mem_map.mp hmem
        exact absurd hid (Nat.ne_of_lt (hlt s hs))
      refine ⟨⟨?_, ?_⟩, ?_⟩
      · show ((db.services ++ [d.toRow db.nextId now]).map Service.id).Nodup
        rw [List.map_append]
        simp [List.nodup_append, hnd, hnotmem, ServiceData.toRow]
      · show ∀ s ∈ db.services ++ [d.toRow db.nextId now], s.id < db.nextId + 1
        intro s hs
        rcases List.mem_append.mp hs with h | h
        · exact Nat.lt_succ_of_lt (hlt s h)
        · rw [List.mem_singleton.mp h]
          exact Nat.lt_succ_self db.nextId
      · refine clientStatsOk_recompute _ d.client_id now (fun c hc hne => ?_)
        have hframe : servicesOf (db.services ++ [d.toRow db.nextId now]) c.id
            = servicesOf db.services c.id :=
          servicesOf_append_single _ _ _ (Ne.symm hne)
        have := stats_congr _ _ c.id hframe
        have hbase := hstats c hc
        exact ⟨hbase.1.trans this.1.symm, hbase.2.trans this.2.symm⟩
  | upd sid g now =>
      show svcIdsWf (svcUpdate db sid g now) ∧ clientStatsOk (svcUpdate db sid g now)
      cases hfind : db.services.find? (fun s => s.id == sid) with
      | none =>
          have hid : svcUpdate db sid g now = db := by
            unfold svcUpdate; rw [hfind]
          rw [hid]
          exact ⟨⟨hnd, hlt⟩, hstats⟩
      | some old =>
          have hX : ({ g old with id := old.id } : Service).client_id
              = old.client_id := hop old
          have hupd : svcUpdate db sid g now
              = recomputeClientStats
                  { db with services := db.services.map (fun s =>
                      if s.id == sid then { g s with id := s.id } else s) }
                  ({ g old with id := old.id } : Service).client_id now := by
            unfold svcUpdate; rw [hfind]
          rw [hX] at hupd
          rw [hupd]
          refine ⟨⟨?_, ?_⟩, ?_⟩
          · show ((db.services.map (fun s =>
              if s.id == sid then { g s with id := s.id } else s)).map
                Service.id).Nodup
            have hcomp : Service.id ∘ (fun s =>
                if s.id == sid then { g s with id := s.id } else s)
                = Service.id := by
              funext s
              by_cases h : s.id = sid <;> simp [Function.comp, h]
            rw [List.map_map, hcomp]
            exact hnd
          · intro s hs
            obtain ⟨s0, hs0, hs0eq⟩ := List.mem_map.mp hs
            have : s.id = s0.id := by
              rw [← hs0eq]
              by_cases h : s0.id = sid <;> simp [h]
            rw [this]
            exact hlt s0 hs0
          · refine clientStatsOk_recompute _ old.client_id now (fun c hc hne => ?_)
            have hframe := servicesOf_update_frame db.services sid g c.id hnd old
              hfind hop (Ne.symm hne)
            have := stats_congr _ _ c.id hframe
            have hbase := hstats c hc
            exact ⟨hbase.1.trans this.1.symm, hbase.2.trans this.2.symm⟩
  | del sid now =>
      show svcIdsWf (svcDelete db sid now) ∧ clientStatsOk (svcDelete db sid now)
      cases hfind : db.services.find? (fun s => s.id == sid) with
      | none =>
          have hid : svcDelete db sid now = db := by
            unfold svcDelete; rw [hfind]
          rw [hid]
          exact ⟨⟨hnd, hlt⟩, hstats⟩
      | some old =>
          have hdel : svcDelete db sid now
              = recomputeClientStats
                  { db with
                      services := db.services.filter (fun s => !(s.id == sid)) }
                  old.client_id now := by
            unfold svcDelete; rw [hfind]
          rw [hdel]
          refine ⟨⟨?_, ?_⟩, ?_⟩
          · show ((db.services.filter (fun s => !(s.id == sid))).map
                Service.id).Nodup
            exact List.Nodup.sublist
              (List.Sublist.map Service.id (List.filter_sublist db.services)) hnd
          · intro s hs
            exact hlt s (List.mem_of_mem_filter hs)
          · refine clientStatsOk_recompute _ old.client_id now (fun c hc hne => ?_)
            have hframe := servicesOf_delete_frame db.services sid c.id hnd old
              hfind (Ne.symm hne)
            have := stats_congr _ _ c.id hframe
            have hbase := hstats c hc
            exact ⟨hbase.1.trans this.1.symm, hbase.2.trans this.2.symm⟩

/-- A sequence of client-preserving service mutations keeps the table
well-formed and the statistics invariant intact. -/
lemma applySvcOps_preserves (db : DB) (ops : List SvcOp) (hwf : svcIdsWf db)
    (hstats : clientStatsOk db) (hops : ∀ op ∈ ops, opPreservesClient op) :
    svcIdsWf (applySvcOps db ops) ∧ clientStatsOk (applySvcOps db ops) := by
  induction ops generalizing db with
  | nil => exact ⟨hwf, hstats⟩
  | cons op rest ih =>
      have hstep := applySvcOp_preserves db op hwf hstats
        (hops op (List.mem_cons_self op rest))
      exact ih (applySvcOp db op) hstep.1 hstep.2
        (fun q hq => hops q (List.mem_cons_of_mem op hq))

/-- C1, as stated, is false: the trigger recomputes the stats only of
`COALESCE(NEW.client_id, OLD.client_id)`, so an UPDATE that moves a service
from client 1 to client 2 recomputes client 2 only and leaves client 1's
`total_spent`/`last_service_date` stale.  Concretely: from a consistent
well-formed state, insert a paid service of value 100 for client 1, then
move it to client 2 — the invariant of the claim no longer holds. -/
theorem claim1_counterexample :
    clientStatsOk
        { DB.empty with
            clients := [{ id := 1, user_id := 7, name := "Ana" },
                        { id := 2, user_id := 7, name := "Bia" }],
            nextId := 10 } ∧
      svcIdsWf
        { DB.empty with
            clients := [{ id := 1, user_id := 7, name := "Ana" },
                        { id := 2, user_id := 7, name := "Bia" }],
            nextId := 10 } ∧
      ¬ clientStatsOk (applySvcOps
        { DB.empty with
            clients := [{ id := 1, user_id := 7, name := "Ana" },
                        { id := 2, user_id := 7, name := "Bia" }],
            nextId := 10 }
        [SvcOp.ins { user_id := 7, client_id := 1, client_name := "Ana",
                     description := "vestido", value := 100,
                     status := Status.paid } 50,
         SvcOp.upd 10 (fun s => { s with client_id := 2 }) 60]) :=
  ⟨by decide, by decide, by decide⟩

/-- C1 (amended): for every client C, after any sequence of Service
insert, update, or delete operations in which no update changes a
service's `client_id` (status changes remain free), starting from a
well-formed state where the invariant holds, C's `total_spent` equals the
sum of `value` over C's services with status paid, and
`last_service_date` equals the maximum creation date over all of C's
services — null if C has none. -/
theorem claim1_client_stats_invariant (db : DB) (ops : List SvcOp)
    (hwf : svcIdsWf db) (hstats : clientStatsOk db)
    (hops : ∀ op ∈ ops, opPreservesClient op) :
    clientStatsOk (applySvcOps db ops) :=
  (applySvcOps_preserves db ops hwf hstats hops).2

/-- Witness for the amended C1: one insert, one status-only update (into
paid) and one delete, starting from two zero-stats clients, keep the
statistics invariant. -/
theorem claim1_witness :
    clientStatsOk (applySvcOps
      { DB.empty with
          clients := [{ id := 1, user_id := 7, name := "Ana" },
                      { id := 2, user_id := 7, name := "Bia" }],
          nextId := 10 }
      [SvcOp.ins { user_id := 7, client_id := 1, client_name := "Ana",
                   description := "vestido", value := 100,
                   status := Status.progress } 50,
       SvcOp.upd 10 (fun s => { s with status := Status.paid }) 60,
       SvcOp.del 10 70]) :=
  claim1_client_stats_invariant _ _ (by decide) (by decide)
    (by
      intro op hop
      simp only [List.mem_cons, List.not_mem_nil, or_false] at hop
      rcases hop with h | h | h <;> subst h
      · trivial
      · exact fun s => rfl
      · trivial)

/-! ## Counter accumulation lemmas -/

/-- Updating exactly the rows a scan matches, by a function that preserves
the scanned predicate, commutes with the scan. -/
lemma find?_map_update {α : Type} (p : α → Bool) (g : α → α) (l : List α)
    (hg : ∀ a, p (g a) = p a) :
    (l.map (fun a => if p a then g a else a)).find? p = (l.find? p).map g := by
  induction l with
  | nil => simp
  | cons a t ih =>
      cases hpa : p a with
      | true => simp [List.find?_cons, hpa, hg a]
      | false => simpa [List.find?_cons, hpa] using ih

/-- A sequence of history insertions, each with its own timestamp. -/
def historyInsertAll (db : DB) (rows : List (HistoryData × Nat)) : DB :=
  rows.foldl (fun db r => historyInsert db r.1 r.2) db

/-- One history insertion adds its delta to the stored running total of its
counter. -/
lemma counterTotal_historyInsert (db : DB) (d : HistoryData) (now : Nat) :
    counterTotal (historyInsert db d now) d.counter_id
      = (counterTotal db d.counter_id).map (fun t => t + d.pieces_added) := by
  unfold counterTotal historyInsert
  rw [find?_map_update (fun k => k.id == d.counter_id)
    (fun k => { k with total_pieces := k.total_pieces + d.pieces_added, updated_at := now })
    db.counters (fun k => rfl)]
  cases db.counters.find? (fun k => k.id == d.counter_id) <;> rfl

/-- One history insertion adds its delta to the full-ledger recomputation
of its counter. -/
lemma ledgerTotal_historyInsert (db : DB) (d : HistoryData) (now : Nat)
    (kid : CounterId) (h : d.counter_id = kid) :
    ledgerTotal (historyInsert db d now) kid = ledgerTotal db kid + d.pieces_added := by
  unfold ledgerTotal historyInsert
  simp [List.filter_append, h]

/-- Folding a sequence of insertions all aimed at one counter adds the sum
of the deltas to its stored running total. -/
lemma counterTotal_historyInsertAll (db : DB) (kid : CounterId)
    (rows : List (HistoryData × Nat)) (hrows : ∀ r ∈ rows, r.1.counter_id = kid) :
    counterTotal (historyInsertAll db rows) kid
      = (counterTotal db kid).map
          (fun t => t + (rows.map (fun r => r.1.pieces_added)).sum) := by
  induction rows generalizing db with
  | nil => cases h : counterTotal db kid <;> simp [historyInsertAll, h]
  | cons r rs ih =>
      have hr : r.1.counter_id = kid := hrows r (List.mem_cons_self r rs)
      have hstep := counterTotal_historyInsert db r.1 r.2
      rw [hr] at hstep
      have htail : ∀ q ∈ rs, q.1.counter_id = kid :=
        fun q hq => hrows q (List.mem_cons_of_mem r hq)
      have := ih (historyInsert db r.1 r.2) htail
      rw [show historyInsertAll db (r :: rs)
            = historyInsertAll (historyInsert db r.1 r.2) rs from rfl, this, hstep]
      cases counterTotal db kid <;> simp [add_assoc]

/-- The stored-total-equals-ledger invariant is preserved by any sequence
of insertions aimed at the counter. -/
lemma stored_eq_ledger_insertAll (db : DB) (kid : CounterId)
    (rows : List (HistoryData × Nat)) (hrows : ∀ r ∈ rows, r.1.counter_id = kid)
    (h : counterTotal db kid = some (ledgerTotal db kid)) :
    counterTotal (historyInsertAll db rows) kid
      = some (ledgerTotal (historyInsertAll db rows) kid) := by
  induction rows generalizing db with
  | nil => simpa [historyInsertAll] using h
  | cons r rs ih =>
      have hr : r.1.counter_id = kid := hrows r (List.mem_cons_self r rs)
      have hstep := counterTotal_historyInsert db r.1 r.2
      rw [hr] at hstep
      rw [show historyInsertAll db (r :: rs)
            = historyInsertAll (historyInsert db r.1 r.2) rs from rfl]
      refine ih (historyInsert db r.1 r.2)
        (fun q hq => hrows q (List.mem_cons_of_mem r hq)) ?_
      rw [hstep, h, ledgerTotal_historyInsert db r.1 r.2 kid hr]
      rfl

/-- C3: for a counter whose stored total is zero (its state at creation),
after any sequence of history insertions with signed deltas aimed at it the
stored `total_pieces` equals the sum of the deltas; and, as the second
conjunct shows at a concrete counter, that sum may be negative — no floor
is enforced. -/
theorem claim3_counter_total_is_sum_of_deltas :
    (∀ (db : DB) (kid : CounterId) (rows : List (HistoryData × Nat)),
        counterTotal db kid = some 0 →
        (∀ r ∈ rows, r.1.counter_id = kid) →
        counterTotal (historyInsertAll db rows) kid
          = some ((rows.map (fun r => r.1.pieces_added)).sum)) ∧
      counterTotal
        (historyInsertAll
          { DB.empty with
              counters := [{ id := 0, user_id := 1, client_id := 2,
                             client_name := "Ana", total_pieces := 0 }],
              nextId := 1 }
          [({ user_id := 1, counter_id := 0, client_name := "Ana",
              pieces_added := 7 }, 10),
           ({ user_id := 1, counter_id := 0, client_name := "Ana",
              pieces_added := -10 }, 20)]) 0 = some (-3) := by
  constructor
  · intro db kid rows h0 hrows
    rw [counterTotal_historyInsertAll db kid rows hrows, h0]
    simp
  · decide

/-- Witness for C3: inserting deltas +10 then -3 into a freshly zeroed
counter leaves a stored total of 7, as the first conjunct of the claim
theorem computes. -/
theorem claim3_witness :
    counterTotal
        (historyInsertAll
          { DB.empty with
              counters := [{ id := 5, user_id := 1, client_id := 2,
                             client_name := "Ana", total_pieces := 0 }],
              nextId := 6 }
          [({ user_id := 1, counter_id := 5, client_name := "Ana",
              pieces_added := 10 }, 30),
           ({ user_id := 1, counter_id := 5, client_name := "Ana",
              pieces_added := -3 }, 40)]) 5 = some 7 := by
  rw [claim3_counter_total_is_sum_of_deltas.1 _ 5 _ (by decide) (by decide)]
  decide

/-- C5: the incremental counter update refines full recomputation from the
ledger: starting from a counter freshly created by
`get_or_create_piece_counter` (no matching counter, fresh id, no stray
history rows carrying the fresh id), after any sequence of history
insertions aimed at it the stored `total_pieces` equals the sum of
`pieces_added` over all of that counter's history rows. -/
theorem claim5_incremental_refines_ledger (db : DB) (uid : UserId) (cid : ClientId)
    (cname : String) (rows : List (HistoryData × Nat))
    (hfresh : db.counters.find?
      (fun k => k.user_id == uid && k.client_id == cid) = none)
    (hids : ∀ k ∈ db.counters, k.id ≠ db.nextId)
    (hnohist : ∀ r ∈ db.history, r.counter_id ≠ db.nextId)
    (hrows : ∀ r ∈ rows,
      r.1.counter_id = (get_or_create_piece_counter db uid cid cname).1) :
    counterTotal
        (historyInsertAll (get_or_create_piece_counter db uid cid cname).2 rows)
        (get_or_create_piece_counter db uid cid cname).1
      = some (ledgerTotal
          (historyInsertAll (get_or_create_piece_counter db uid cid cname).2 rows)
          (get_or_create_piece_counter db uid cid cname).1) := by
  have hres : get_or_create_piece_counter db uid cid cname
      = (db.nextId,
         { db with
             counters := db.counters ++
               [{ id := db.nextId, user_id := uid, client_id := cid,
                  client_name := cname, total_pieces := 0 }],
             nextId := db.nextId + 1 }) := by
    unfold get_or_create_piece_counter
    rw [hfresh]
  rw [hres] at hrows ⊢
  refine stored_eq_ledger_insertAll _ db.nextId rows hrows ?_
  have hfind : db.counters.find? (fun k => k.id == db.nextId) = none := by
    rw [List.find?_eq_none]
    intro k hk
    simpa using hids k hk
  have hledger : (db.history.filter (fun r => r.counter_id == db.nextId)) = [] := by
    rw [List.filter_eq_nil_iff]
    intro r hr
    simpa using hnohist r hr
  unfold counterTotal ledgerTotal
  simp only
  rw [find?_append_single _ _ _ hfind]
  simp [hledger]

/-- Witness for C5: in the empty database, creating a counter and then
inserting deltas +10 and -3 leaves a stored total equal to the ledger
recomputation. -/
theorem claim5_witness :
    counterTotal
        (historyInsertAll (get_or_create_piece_counter DB.empty 1 2 "Ana").2
          [({ user_id := 1, counter_id := 0, client_name := "Ana",
              pieces_added := 10 }, 30),
           ({ user_id := 1, counter_id := 0, client_name := "Ana",
              pieces_added := -3 }, 40)])
        (get_or_create_piece_counter DB.empty 1 2 "Ana").1
      = some (ledgerTotal
          (historyInsertAll (get_or_create_piece_counter DB.empty 1 2 "Ana").2
            [({ user_id := 1, counter_id := 0, client_name := "Ana",
                pieces_added := 10 }, 30),
             ({ user_id := 1, counter_id := 0, client_name := "Ana",
                pieces_added := -3 }, 40)])
          (get_or_create_piece_counter DB.empty 1 2 "Ana").1) :=
  claim5_incremental_refines_ledger DB.empty 1 2 "Ana" _
    (by decide) (by decide) (by decide) (by decide)

/-! ## Zero-state lemmas -/

/-- Commuting two list filters. -/
lemma filter_swap {α : Type} (p q : α → Bool) (l : List α) :
    (l.filter p).filter q = (l.filter q).filter p := by
  induction l with
  | nil => rfl
  | cons a t ih =>
      cases hp : p a <;> cases hq : q a <;> simp [List.filter_cons, hp, hq, ih]

/-- C6: (i) a Client newly created by resolve-or-create-client is appended
with `total_spent = 0`, `last_service_date` null and `is_favorite` false;
(ii) a newly created PieceCounter is appended with `total_pieces = 0`;
(iii) deleting a client's last remaining service recomputes both derived
fields back to that zero state. -/
theorem claim6_zero_state :
    (∀ (db : DB) (A : UserId) (N : String),
        db.clients.find? (fun c =>
          c.user_id == A && sqlLower c.name == sqlLower N) = none →
        ∃ c : Client,
          (get_or_create_client db A N).2.clients = db.clients ++ [c] ∧
            c.id = (get_or_create_client db A N).1 ∧
            c.total_spent = 0 ∧ c.last_service_date = none ∧ c.is_favorite = false) ∧
      (∀ (db : DB) (A : UserId) (cid : ClientId) (N : String),
        db.counters.find? (fun k => k.user_id == A && k.client_id == cid) = none →
        ∃ k : PieceCounter,
          (get_or_create_piece_counter db A cid N).2.counters = db.counters ++ [k] ∧
            k.id = (get_or_create_piece_counter db A cid N).1 ∧
            k.total_pieces = 0) ∧
      (∀ (db : DB) (sid : ServiceId) (s : Service) (now : Nat),
        db.services.find? (fun x => x.id == sid) = some s →
        servicesOf db.services s.client_id = [s] →
        ∀ c ∈ (svcDelete db sid now).clients, c.id = s.client_id →
          c.total_spent = 0 ∧ c.last_service_date = none) := by
  refine ⟨?_, ?_, ?_⟩
  · intro db A N hfresh
    refine ⟨{ id := db.nextId, user_id := A, name := N }, ?_, ?_, rfl, rfl, rfl⟩
    · unfold get_or_create_client
      rw [hfresh]
    · unfold get_or_create_client
      rw [hfresh]
  · intro db A cid N hfresh
    refine ⟨{ id := db.nextId, user_id := A, client_id := cid, client_name := N,
              total_pieces := 0 }, ?_, ?_, rfl⟩
    · unfold get_or_create_piece_counter
      rw [hfresh]
    · unfold get_or_create_piece_counter
      rw [hfresh]
  · intro db sid s now hfind honly c hc hcid
    have hsid : s.id = sid := by
      have := List.find?_some hfind
      simpa using this
    have hempty : servicesOf (db.services.filter (fun x => !(x.id == sid)))
        s.client_id = [] := by
      unfold servicesOf
      rw [filter_swap]
      unfold servicesOf at honly
      rw [honly]
      simp [List.filter_cons, hsid]
    unfold svcDelete at hc
    rw [hfind] at hc
    unfold recomputeClientStats at hc
    simp only [List.mem_map] at hc
    obtain ⟨c0, _, hc0⟩ := hc
    by_cases h0 : c0.id = s.client_id
    · rw [← hc0]
      simp only [h0, beq_self_eq_true, if_true]
      constructor
      · show paidTotal (db.services.filter (fun x => !(x.id == sid))) s.client_id = 0
        unfold paidTotal
        rw [hempty]
        rfl
      · show lastServiceDate (db.services.filter (fun x => !(x.id == sid)))
            s.client_id = none
        unfold lastServiceDate
        rw [hempty]
        rfl
    · exfalso
      apply h0
      rw [← hcid, ← hc0]
      simp [beq_eq_false_iff_ne.mpr h0]

/-- Witness for C6: instantiating all three parts — creating client 7/"Ana"
in the empty database, creating its counter, and deleting the sole service
of a one-service client — exhibits the zero states concretely. -/
theorem claim6_witness :
    (∃ c : Client,
        (get_or_create_client DB.empty 7 "Ana").2.clients = [] ++ [c] ∧
          c.id = (get_or_create_client DB.empty 7 "Ana").1 ∧
          c.total_spent = 0 ∧ c.last_service_date = none ∧ c.is_favorite = false) ∧
      (∃ k : PieceCounter,
        (get_or_create_piece_counter DB.empty 7 0 "Ana").2.counters = [] ++ [k] ∧
          k.id = (get_or_create_piece_counter DB.empty 7 0 "Ana").1 ∧
          k.total_pieces = 0) ∧
      (∀ c ∈ (svcDelete
          { DB.empty with
              clients := [{ id := 3, user_id := 7, name := "Ana",
                            total_spent := 120, last_service_date := some 1 }],
              services := [{ id := 9, user_id := 7, client_id := 3,
                             client_name := "Ana", description := "vestido",
                             value := 120, status := Status.paid,
                             created_at := 86400, updated_at := 86400 }],
              nextId := 10 } 9 99).clients, c.id = 3 →
        c.total_spent = 0 ∧ c.last_service_date = none) :=
  ⟨claim6_zero_state.1 DB.empty 7 "Ana" (by decide),
   claim6_zero_state.2.1 DB.empty 7 0 "Ana" (by decide),
   claim6_zero_state.2.2 _ 9
     { id := 9, user_id := 7, client_id := 3, client_name := "Ana",
       description := "vestido", value := 120, status := Status.paid,
       created_at := 86400, updated_at := 86400 } 99 (by decide) (by decide)⟩

/-- Witness for C4 at the spec's own scenario: in an empty database,
resolve-or-create-client(A, "ana") followed by
resolve-or-create-client(A, "Ana") returns the same identifier and leaves
the database unchanged. -/
theorem claim4_witness :
    sqlLower "ana" = sqlLower "Ana" ∧
      ((get_or_create_client (get_or_create_client DB.empty 7 "ana").2 7 "Ana").1
          = (get_or_create_client DB.empty 7 "ana").1 ∧
        (get_or_create_client (get_or_create_client DB.empty 7 "ana").2 7 "Ana").2
          = (get_or_create_client DB.empty 7 "ana").2) :=
  ⟨by decide, claim4_resolve_client_case_insensitive DB.empty 7 "ana" "Ana" (by decide)⟩

/-! ## Constraint checking, authentication and frame claims -/

/-- The identifying and contact fields of a client row: everything except
`is_favorite` and the bookkeeping `updated_at` timestamp. -/
def clientFrame (c : Client) :
    ClientId × UserId × String × Option String × Option String × Int ×
      Option Nat × Option String × Nat :=
  (c.id, c.user_id, c.name, c.phone, c.email, c.total_spent,
    c.last_service_date, c.notes, c.created_at)

/-- C7 counterexample: the effective `services` schema carries no
non-negativity check on `value`, so inserting a service with the negative
value -50.00 (all required fields present, status valid) is accepted and a
row is created — the claim that a negative monetary value is rejected at
the data layer is false. -/
theorem claim7_counterexample :
    ∃ db2, rawServiceInsert
        { DB.empty with
            clients := [{ id := 1, user_id := 7, name := "Ana" }],
            nextId := 10 }
        { user_id := some 7, client_id := some 1, client_name := some "Ana",
          description := some "ajuste", value := some (-5000),
          status := some "paid" } 50 = Except.ok db2 ∧
      db2.services.length = 1 ∧
      db2.services.map (fun s => s.value) = [-5000] := by
  refine ⟨_, rfl, ?_, ?_⟩ <;> decide

/-- C7 (amended): creating a Service with an invalid status value or a
missing required field fails at the data layer — the insert is rejected
and no row is created; an insert with all required fields and a valid
status succeeds and appends exactly one row whatever the sign of `value`
(the effective schema has no non-negativity check). -/
theorem claim7_constraint_rejection (db : DB) (p : RawServiceInsert) (now : Nat) :
    (requiredPresent p = false ∨ statusCheckOk p = false →
        rawServiceInsert db p now = Except.error "constraint violation") ∧
      (requiredPresent p = true → statusCheckOk p = true →
        ∃ db2, rawServiceInsert db p now = Except.ok db2 ∧
          db2.services.length = db.services.length + 1) := by
  constructor
  · intro h
    unfold rawServiceInsert
    rcases h with h | h <;> simp [h]
  · intro h1 h2
    refine ⟨svcInsert db
        { user_id := p.user_id.getD 0, client_id := p.client_id.getD 0,
          client_name := p.client_name.getD "",
          description := p.description.getD "", value := p.value.getD 0,
          delivery_date := p.delivery_date,
          status := decodeStatus (p.status.getD "progress"),
          notes := p.notes } now, ?_, ?_⟩
    · unfold rawServiceInsert
      simp [h1, h2]
    · show ((svcInsert db _ now).services).length = db.services.length + 1
      unfold svcInsert recomputeClientStats
      simp

/-- Witness for C7: a payload with a missing `description` is rejected,
and the same payload completed is accepted, adding one row. -/
theorem claim7_witness :
    (requiredPresent
          { user_id := some 7, client_id := some 1, client_name := some "Ana",
            value := some 100, status := some "oops" } = false ∨
        statusCheckOk
          { user_id := some 7, client_id := some 1, client_name := some "Ana",
            value := some 100, status := some "oops" } = false) ∧
      rawServiceInsert DB.empty
          { user_id := some 7, client_id := some 1, client_name := some "Ana",
            value := some 100, status := some "oops" } 5
        = Except.error "constraint violation" :=
  ⟨Or.inl (by decide),
   (claim7_constraint_rejection DB.empty
      { user_id := some 7, client_id := some 1, client_name := some "Ana",
        value := some 100, status := some "oops" } 5).1 (Or.inl (by decide))⟩

/-- C8: each mutating application call made without an authenticated user
returns the explicit failure `User not authenticated` and leaves the whole
database unchanged — no Client, Service, PieceCounter or
PieceCounterHistory row is created. -/
theorem claim8_unauthenticated_rejected :
    (∀ (db : DB) (inp : CreateServiceInput) (now : Nat),
        createService none db inp now
          = (Except.error "User not authenticated", db)) ∧
      ∀ (db : DB) (inp : AddPiecesInput) (now : Nat),
        addPiecesToCounter none db inp now
          = (Except.error "User not authenticated", db) :=
  ⟨fun _ _ _ => rfl, fun _ _ _ => rfl⟩

/-- C9: `updateClientFavorite` changes only the targeted client's
`is_favorite` flag: the services, counters and history tables are
untouched, every client keeps its identity, contact and derived fields
(`name`, `phone`, `email`, `notes`, `total_spent`, `last_service_date`),
every other client's row is wholly unchanged, and the targeted row's flag
becomes the requested value. -/
theorem claim9_update_favorite_frame (db : DB) (cid : ClientId) (b : Bool)
    (now : Nat) :
    (updateClientFavorite db cid b now).services = db.services ∧
      (updateClientFavorite db cid b now).counters = db.counters ∧
      (updateClientFavorite db cid b now).history = db.history ∧
      (updateClientFavorite db cid b now).clients.map clientFrame
        = db.clients.map clientFrame ∧
      (∀ c ∈ db.clients, c.id ≠ cid →
        c ∈ (updateClientFavorite db cid b now).clients) ∧
      (∀ c ∈ (updateClientFavorite db cid b now).clients, c.id = cid →
        c.is_favorite = b) := by
  refine ⟨rfl, rfl, rfl, ?_, ?_, ?_⟩
  · show (db.clients.map (fun c =>
        if c.id == cid then { c with is_favorite := b, updated_at := now }
        else c)).map clientFrame
      = db.clients.map clientFrame
    rw [List.map_map]
    refine List.map_congr_left (fun c _ => ?_)
    by_cases h : c.id = cid <;> simp [Function.comp, h, clientFrame]
  · intro c hc hne
    show c ∈ db.clients.map (fun c =>
      if c.id == cid then { c with is_favorite := b, updated_at := now }
      else c)
    refine List.mem_map.mpr ⟨c, hc, ?_⟩
    simp [beq_eq_false_iff_ne.mpr hne]
  · intro c hc hcid
    obtain ⟨c0, _, hc0⟩ := List.mem_map.mp hc
    by_cases h : c0.id = cid
    · rw [← hc0]
      simp [h]
    · exfalso
      apply h
      rw [← hcid, ← hc0]
      simp [beq_eq_false_iff_ne.mpr h]

/-- Witness for C9: toggling the favorite flag of client 1 in a two-client
database leaves client 2's row unchanged and sets client 1's flag. -/
theorem claim9_witness :
    ({ id := 2, user_id := 7, name := "Bia" } : Client)
        ∈ (updateClientFavorite
            { DB.empty with
                clients := [{ id := 1, user_id := 7, name := "Ana" },
                            { id := 2, user_id := 7, name := "Bia" }],
                nextId := 10 } 1 true 99).clients ∧
      ∀ c ∈ (updateClientFavorite
          { DB.empty with
              clients := [{ id := 1, user_id := 7, name := "Ana" },
                          { id := 2, user_id := 7, name := "Bia" }],
              nextId := 10 } 1 true 99).clients, c.id = 1 → c.is_favorite = true :=
  ⟨(claim9_update_favorite_frame
      { DB.empty with
          clients := [{ id := 1, user_id := 7, name := "Ana" },
                      { id := 2, user_id := 7, name := "Bia" }],
          nextId := 10 } 1 true 99).2.2.2.2.1
      { id := 2, user_id := 7, name := "Bia" } (by decide) (by decide),
   (claim9_update_favorite_frame
      { DB.empty with
          clients := [{ id := 1, user_id := 7, name := "Ana" },
                      { id := 2, user_id := 7, name := "Bia" }],
          nextId := 10 } 1 true 99).2.2.2.2.2⟩

/-- C10: `createService` stores the caller-supplied client name verbatim
in the new service row, and — as the concrete second conjunct shows — when
the resolver matched an existing client whose stored name differs only in
letter case, the service's `client_name` ("ana") differs from the `name`
("Ana") on the client row it references. -/
theorem claim10_client_name_verbatim :
    (∀ (uid : UserId) (db : DB) (inp : CreateServiceInput) (now : Nat),
        ((createService (some uid) db inp now).1).map (fun s => s.client_name)
          = Except.ok inp.client_name) ∧
      ∃ s : Service,
        (createService (some 7)
            { DB.empty with
                clients := [{ id := 1, user_id := 7, name := "Ana" }],
                nextId := 10 }
            { client_name := "ana", description := "ajuste", value := 100,
              status := Status.progress } 50).1 = Except.ok s ∧
          s.client_name = "ana" ∧
          ∃ c ∈ (createService (some 7)
              { DB.empty with
                  clients := [{ id := 1, user_id := 7, name := "Ana" }],
                  nextId := 10 }
              { client_name := "ana", description := "ajuste", value := 100,
                status := Status.progress } 50).2.clients,
            c.id = s.client_id ∧ c.name = "Ana" ∧ c.name ≠ s.client_name := by
  constructor
  · intro uid db inp now
    rfl
  · refine ⟨_, rfl, ?_, ?_⟩ <;> decide

end Costureira
